import Mathlib

/-!
Verification of the `KullbackLeibler` objective of
`Wrappers/Python/ccpi/optimisation/functions/KullbackLeibler.py`.

The source file is left in a merge-conflicted state: between every pair of
conflict markers it holds two variants of the same method, one from `HEAD`
and one from the `composite_operator_datacontainer` branch.  Both variants
are embedded here; definitions carry the suffix `_head` or `_cod`
respectively, with the line numbers of the variant they embed.

Data containers are modelled as real-valued vectors `Fin n → ℝ`; every
elementwise numpy operation of the source becomes one `let`-bound vector.
The one place where IEEE special values are observable (division by zero
inside `convex_conjugate`, whose positivity guard can be passed by `+inf`)
is modelled by the small value type `FloatV`.
-/

open Classical

noncomputable section

/-- An n-element data container (flattened view of the numpy array). -/
abbrev Cnt (n : ℕ) := Fin n → ℝ

/-- A constant (scalar-broadcast) container. -/
def cst (n : ℕ) (c : ℝ) : Cnt n := fun _ => c

/-- The `KullbackLeibler` objective: observed data `b` and the background
term `bnoise` (the scalar default 0 is the constant-zero container). -/
structure KullbackLeibler (n : ℕ) where
  b : Cnt n
  bnoise : Cnt n

namespace KullbackLeibler

/-- `__call__`, HEAD variant (lines 45-50):
`tmp = x + bnoise`, boolean mask `ind = tmp > 0`, then
`sum(x[ind] - b[ind] * log(tmp[ind]))`. -/
def call_head {n : ℕ} (f : KullbackLeibler n) (x : Cnt n) : ℝ :=
  let tmp : Cnt n := fun i => x i + f.bnoise i
  ∑ i in Finset.univ.filter (fun i => 0 < tmp i),
    (x i - f.b i * Real.log (tmp i))

/-- Modelled from the spec (section 4.1 of the specification document):
`value(x) = Σ [ x + bnoise − b·log(x + bnoise) ]` over the positions where
`x + bnoise > 0`.  This follows the specification text, to be compared with
the source function `call_head`. -/
def call_specification {n : ℕ} (f : KullbackLeibler n) (x : Cnt n) : ℝ :=
  ∑ i in Finset.univ.filter (fun i => 0 < x i + f.bnoise i),
    ((x i + f.bnoise i) - f.b i * Real.log (x i + f.bnoise i))

/-- `gradient`, allocating form (line 80): `1 - b/(x + bnoise)`. -/
def gradient_alloc {n : ℕ} (f : KullbackLeibler n) (x : Cnt n) : Cnt n :=
  fun i => 1 - f.b i / (x i + f.bnoise i)

/-- `gradient`, HEAD in-place form (lines 83-84):
`b.divide(x+bnoise, out=out); out.subtract(1, out=out)`. -/
def gradient_inplace_head {n : ℕ} (f : KullbackLeibler n) (x : Cnt n) : Cnt n :=
  let out1 : Cnt n := fun i => f.b i / (x i + f.bnoise i)
  let out2 : Cnt n := fun i => out1 i - 1
  out2

/-- `gradient`, cod in-place form (lines 95-98):
`x.add(bnoise, out=out); b.divide(out, out=out); out.subtract(1, out=out);
out *= -1`.  `x` is read only by the first statement, so with `out`
aliased to `x` the very same step sequence (hence the same function of the
original `x`) is executed. -/
def gradient_inplace_cod {n : ℕ} (f : KullbackLeibler n) (x : Cnt n) : Cnt n :=
  let out1 : Cnt n := fun i => x i + f.bnoise i
  let out2 : Cnt n := fun i => f.b i / out1 i
  let out3 : Cnt n := fun i => out2 i - 1
  let out4 : Cnt n := fun i => -out3 i
  out4

/-- `proximal`, allocating form (line 111, identical in both variants):
`0.5 * ((x - bnoise - tau) + ((x + bnoise - tau)**2 + 4*tau*b).sqrt())`. -/
def proximal_alloc {n : ℕ} (f : KullbackLeibler n) (x : Cnt n) (tau : ℝ) : Cnt n :=
  fun i =>
    0.5 * ((x i - f.bnoise i - tau) +
      Real.sqrt ((x i + f.bnoise i - tau) ^ 2 + 4 * tau * f.b i))

/-- `proximal`, HEAD in-place form (lines 114-115): the allocating formula is
computed into a fresh `tmp` (reading `x` before anything is written) and
then `out.fill(tmp)`; hence it is also the result when `out` is `x`. -/
def proximal_inplace_head {n : ℕ} (f : KullbackLeibler n) (x : Cnt n) (tau : ℝ) : Cnt n :=
  let tmp : Cnt n := fun i =>
    0.5 * ((x i - f.bnoise i - tau) +
      Real.sqrt ((x i + f.bnoise i - tau) ^ 2 + 4 * tau * f.b i))
  tmp

/-- `proximal`, cod in-place form (lines 117-132), `out` NOT aliased to `x`:
`x.add(bnoise, out=out); out -= tau; out *= out; tmp = b*(4*tau);
out.add(tmp, out=out); out.sqrt(out=out); x.subtract(bnoise, out=tmp);
tmp -= tau; out += tmp; out *= 0.5`. -/
def proximal_inplace_cod {n : ℕ} (f : KullbackLeibler n) (x : Cnt n) (tau : ℝ) : Cnt n :=
  let out1 : Cnt n := fun i => x i + f.bnoise i
  let out2 : Cnt n := fun i => out1 i - tau
  let out3 : Cnt n := fun i => out2 i * out2 i
  let tmp1 : Cnt n := fun i => f.b i * (4 * tau)
  let out4 : Cnt n := fun i => out3 i + tmp1 i
  let out5 : Cnt n := fun i => Real.sqrt (out4 i)
  let tmp2 : Cnt n := fun i => x i - f.bnoise i
  let tmp3 : Cnt n := fun i => tmp2 i - tau
  let out6 : Cnt n := fun i => out5 i + tmp3 i
  let out7 : Cnt n := fun i => out6 i * 0.5
  out7

/-- `proximal`, cod in-place form with `out` aliased to `x`: the buffer
written by the first six statements IS `x`, so the later
`x.subtract(bnoise, out=tmp)` reads the already-overwritten buffer
(`out5`), not the original iterate. -/
def proximal_inplace_cod_aliased {n : ℕ} (f : KullbackLeibler n) (x : Cnt n) (tau : ℝ) : Cnt n :=
  let out1 : Cnt n := fun i => x i + f.bnoise i
  let out2 : Cnt n := fun i => out1 i - tau
  let out3 : Cnt n := fun i => out2 i * out2 i
  let tmp1 : Cnt n := fun i => f.b i * (4 * tau)
  let out4 : Cnt n := fun i => out3 i + tmp1 i
  let out5 : Cnt n := fun i => Real.sqrt (out4 i)
  let tmp2 : Cnt n := fun i => out5 i - f.bnoise i
  let tmp3 : Cnt n := fun i => tmp2 i - tau
  let out6 : Cnt n := fun i => out5 i + tmp3 i
  let out7 : Cnt n := fun i => out6 i * 0.5
  out7

/-- `proximal_conjugate`, HEAD allocating form (lines 141-143):
`z = x + tau*bnoise; 0.5*((z + 1) - ((z-1)**2 + 4*tau*b).sqrt())`. -/
def proximal_conjugate_head {n : ℕ} (f : KullbackLeibler n) (x : Cnt n) (tau : ℝ) : Cnt n :=
  let z : Cnt n := fun i => x i + tau * f.bnoise i
  fun i => 0.5 * ((z i + 1) - Real.sqrt ((z i - 1) ^ 2 + 4 * tau * f.b i))

/-- `proximal_conjugate`, cod allocating form (lines 141, 150):
`z = x + tau*bnoise; (z + 1) - ((z-1)**2 + 4*tau*b).sqrt()`. -/
def proximal_conjugate_cod {n : ℕ} (f : KullbackLeibler n) (x : Cnt n) (tau : ℝ) : Cnt n :=
  let z : Cnt n := fun i => x i + tau * f.bnoise i
  fun i => (z i + 1) - Real.sqrt ((z i - 1) ^ 2 + 4 * tau * f.b i)

/-- `proximal_conjugate`, cod in-place form (lines 152-161):
`z_m = x + tau*bnoise - 1; b.multiply(4*tau, out=out);
z_m.multiply(z_m, out=z_m); out += z_m; out.sqrt(out=out);
z_m.sqrt(out=z_m); z_m += 2; out *= -1; out += z_m`. -/
def proximal_conjugate_inplace_cod {n : ℕ} (f : KullbackLeibler n) (x : Cnt n) (tau : ℝ) : Cnt n :=
  let zm1 : Cnt n := fun i => x i + tau * f.bnoise i - 1
  let out1 : Cnt n := fun i => f.b i * (4 * tau)
  let zm2 : Cnt n := fun i => zm1 i * zm1 i
  let out2 : Cnt n := fun i => out1 i + zm2 i
  let out3 : Cnt n := fun i => Real.sqrt (out2 i)
  let zm3 : Cnt n := fun i => Real.sqrt (zm2 i)
  let zm4 : Cnt n := fun i => zm3 i + 2
  let out4 : Cnt n := fun i => -out3 i
  let out5 : Cnt n := fun i => out4 i + zm4 i
  out5

end KullbackLeibler

/-- IEEE double value as observable in `convex_conjugate`: a finite real or
one of the special values produced by dividing by a (positive) zero. -/
inductive FloatV
  | fin (r : ℝ)
  | inf
  | ninf
  | nan

namespace FloatV

/-- Modelled from the spec: the array container's elementwise division is
supplied by the ccpi framework (`ccpi.framework`, not under `src/`), a
numpy wrapper; per section 4.2 of the specification a zero or negative
denominator "produces ±Inf/NaN at that position", i.e. IEEE-754 (numpy)
semantics for a zero divisor (here the divisor `1 - x` is an exactly
computed positive zero): `a/0 = +inf` for `a > 0`, `-inf` for `a < 0`,
`nan` for `a = 0`. -/
def fdiv (a c : ℝ) : FloatV :=
  if c = 0 then
    if 0 < a then FloatV.inf else if a < 0 then FloatV.ninf else FloatV.nan
  else FloatV.fin (a / c)

/-- The elementwise strict-positivity test of the guard in
`KullbackLeibler.log` (`y > 0`): `+inf > 0` holds, `nan > 0` and
`-inf > 0` do not. -/
def isPos : FloatV → Prop
  | FloatV.fin r => 0 < r
  | FloatV.inf => True
  | FloatV.ninf => False
  | FloatV.nan => False

/-- `numpy.log` on a value that passed (or could fail) the guard. -/
def flog : FloatV → FloatV
  | FloatV.fin r => if 0 < r then FloatV.fin (Real.log r)
      else if r = 0 then FloatV.ninf else FloatV.nan
  | FloatV.inf => FloatV.inf
  | FloatV.ninf => FloatV.nan
  | FloatV.nan => FloatV.nan

/-- Subtract a finite scalar. -/
def subR (v : FloatV) (c : ℝ) : FloatV :=
  match v with
  | FloatV.fin r => FloatV.fin (r - c)
  | FloatV.inf => FloatV.inf
  | FloatV.ninf => FloatV.ninf
  | FloatV.nan => FloatV.nan

/-- Multiply by a finite scalar on the left (IEEE: `0 * inf = nan`). -/
def mulR (c : ℝ) (v : FloatV) : FloatV :=
  match v with
  | FloatV.fin r => FloatV.fin (c * r)
  | FloatV.inf =>
      if 0 < c then FloatV.inf else if c < 0 then FloatV.ninf else FloatV.nan
  | FloatV.ninf =>
      if 0 < c then FloatV.ninf else if c < 0 then FloatV.inf else FloatV.nan
  | FloatV.nan => FloatV.nan

/-- IEEE addition (`inf + (-inf) = nan`). -/
def fadd : FloatV → FloatV → FloatV
  | FloatV.fin a, FloatV.fin b => FloatV.fin (a + b)
  | FloatV.fin _, FloatV.inf => FloatV.inf
  | FloatV.fin _, FloatV.ninf => FloatV.ninf
  | FloatV.inf, FloatV.fin _ => FloatV.inf
  | FloatV.ninf, FloatV.fin _ => FloatV.ninf
  | FloatV.inf, FloatV.inf => FloatV.inf
  | FloatV.ninf, FloatV.ninf => FloatV.ninf
  | FloatV.inf, FloatV.ninf => FloatV.nan
  | FloatV.ninf, FloatV.inf => FloatV.nan
  | FloatV.nan, _ => FloatV.nan
  | _, FloatV.nan => FloatV.nan

/-- IEEE negation. -/
def fneg : FloatV → FloatV
  | FloatV.fin r => FloatV.fin (-r)
  | FloatV.inf => FloatV.ninf
  | FloatV.ninf => FloatV.inf
  | FloatV.nan => FloatV.nan

/-- IEEE subtraction. -/
def fsub (u v : FloatV) : FloatV := fadd u (fneg v)

/-- `numpy` reduction `sum` over the flattened container. -/
def fsum {n : ℕ} (v : Fin n → FloatV) : FloatV :=
  (List.finRange n).foldr (fun i acc => fadd (v i) acc) (FloatV.fin 0)

end FloatV

/-- Result of `convex_conjugate`: either the scalar value or the
`ValueError` raised by the strict-positivity guard of the `log` helper
(lines 70-72). -/
inductive CCRes
  | raise
  | ok (v : FloatV)

namespace KullbackLeibler

open FloatV

/-- `convex_conjugate`, cod variant (lines 100-104), using the in-place
`log` helper (lines 68-73): `tmp = b/(1 - x)`; the helper raises
`ValueError` unless every element of `tmp` is strictly positive, otherwise
fills `tmp` with its elementwise log; the return value is
`(b * (tmp - 1) - bnoise * (x - 1)).sum()`. -/
def convex_conjugate_cod {n : ℕ} (f : KullbackLeibler n) (x : Cnt n) : CCRes :=
  let tmp : Fin n → FloatV := fun i => fdiv (f.b i) (1 - x i)
  if ∀ i, isPos (tmp i) then
    let tmp2 : Fin n → FloatV := fun i => flog (tmp i)
    CCRes.ok (fsum (fun i =>
      fsub (mulR (f.b i) (subR (tmp2 i) 1)) (FloatV.fin (f.bnoise i * (x i - 1)))))
  else CCRes.raise

end KullbackLeibler

/-- Value cached in the instance attribute `sum_value` by the cod variant of
`__call__`: the container `x + bnoise`, possibly overwritten by the scalar
`numpy.inf`. -/
inductive SumVal (n : ℕ)
  | arr (v : Cnt n)
  | infVal

/-- Scalar outcome of the cod variant of `__call__`: the finite sum,
`numpy.inf`, or the `ValueError` raised by the `log` helper. -/
inductive CallRes
  | raise
  | infinite
  | val (r : ℝ)

/-- The mutable state of a `KullbackLeibler` instance: the construction
data plus the `sum_value` attribute (absent until the cod `__call__`
first assigns it). -/
structure KLState (n : ℕ) where
  kl : KullbackLeibler n
  sum_value : Option (SumVal n)

namespace KullbackLeibler

/-- `__call__`, cod variant (lines 54-64), with the instance state threaded
explicitly.  The code assigns `self.sum_value = x + self.bnoise`, replaces
it by `numpy.inf` when any element is `< 0` (returning `numpy.inf`), and
otherwise hands a copy to the guarded `log` helper and returns
`(x - self.b * tmp).sum()`.  (The comparison `self.sum_value == numpy.inf`
involves the external container's equality, not under `src/`; it is
modelled as distinguishing exactly the `numpy.inf` marker from a data
container, which does not affect the state threading.) -/
def call_cod {n : ℕ} (s : KLState n) (x : Cnt n) : KLState n × CallRes :=
  let sv : Cnt n := fun i => x i + s.kl.bnoise i
  if ∃ i, sv i < 0 then
    ({ s with sum_value := some SumVal.infVal }, CallRes.infinite)
  else
    let s1 : KLState n := { s with sum_value := some (SumVal.arr sv) }
    if ∀ i, 0 < sv i then
      (s1, CallRes.val (∑ i, (x i - s.kl.b i * Real.log (sv i))))
    else (s1, CallRes.raise)

/-- `gradient` threaded through the instance state: the method reads `b`
and `bnoise` and writes only `out` and locals, never an instance
attribute. -/
def gradient_st {n : ℕ} (s : KLState n) (x : Cnt n) : KLState n × Cnt n :=
  (s, gradient_alloc s.kl x)

/-- `proximal` threaded through the instance state (no attribute write). -/
def proximal_st {n : ℕ} (s : KLState n) (x : Cnt n) (tau : ℝ) : KLState n × Cnt n :=
  (s, proximal_alloc s.kl x tau)

/-- `proximal_conjugate` threaded through the instance state (no attribute
write). -/
def proximal_conjugate_st {n : ℕ} (s : KLState n) (x : Cnt n) (tau : ℝ) : KLState n × Cnt n :=
  (s, proximal_conjugate_cod s.kl x tau)

/-- `convex_conjugate` threaded through the instance state (the guarded
`log` mutates only the local `tmp`, no attribute write). -/
def convex_conjugate_st {n : ℕ} (s : KLState n) (x : Cnt n) : KLState n × CCRes :=
  (s, convex_conjugate_cod s.kl x)

end KullbackLeibler

/-! ### Concrete fixtures -/

/-- The objective of the spec scenario: `b = [[2]]`, `bnoise = 0`. -/
def klB2 : KullbackLeibler 1 := ⟨cst 1 2, cst 1 0⟩

/-- An objective with `b = [[1]]` and a nonzero background `bnoise = [[1]]`. -/
def klB1N1 : KullbackLeibler 1 := ⟨cst 1 1, cst 1 1⟩

/-- An objective with `b = [[0]]`. -/
def klZero : KullbackLeibler 1 := ⟨cst 1 0, cst 1 0⟩

/-- The iterate `x = [[1]]`. -/
def oneV : Cnt 1 := cst 1 1

/-- The iterate `x = [[1/2]]`. -/
def halfV : Cnt 1 := cst 1 (1/2)

/-- The iterate `x = [[2]]`. -/
def twoV : Cnt 1 := cst 1 2

/-- The iterate `x = [[0]]`. -/
def zeroV : Cnt 1 := cst 1 0

/-- A freshly constructed instance (the `sum_value` attribute absent). -/
def s0 : KLState 1 := ⟨klB2, none⟩

/-! ### Numeric helper lemmas -/

lemma sqrt_eight : Real.sqrt 8 = 2 * Real.sqrt 2 := by
  rw [show (8 : ℝ) = 2 ^ 2 * 2 by norm_num, Real.sqrt_mul (by norm_num),
    Real.sqrt_sq (by norm_num)]

lemma sqrt_two_gt : (1.4142135 : ℝ) < Real.sqrt 2 :=
  (Real.lt_sqrt (by norm_num)).mpr (by norm_num)

lemma sqrt_two_lt : Real.sqrt 2 < (1.4142136 : ℝ) :=
  (Real.sqrt_lt' (by norm_num)).mpr (by norm_num)

/-! ### Claims -/

/-- Claim C5: the allocating `proximal` returns elementwise
`0.5*((x - bnoise - tau) + sqrt((x + bnoise - tau)^2 + 4*tau*b))`; at
`b = [[2]]`, `bnoise = 0`, `x = [[1]]`, `tau = 1` the result is
`0.5*sqrt(8) ≈ 1.41421`. -/
theorem claim_C5_proximal_formula :
    (∀ (n : ℕ) (f : KullbackLeibler n) (x : Cnt n) (tau : ℝ), 0 < tau →
      ∀ i, KullbackLeibler.proximal_alloc f x tau i =
        0.5 * ((x i - f.bnoise i - tau) +
          Real.sqrt ((x i + f.bnoise i - tau) ^ 2 + 4 * tau * f.b i))) ∧
    KullbackLeibler.proximal_alloc klB2 oneV 1 0 = 0.5 * Real.sqrt 8 ∧
    |KullbackLeibler.proximal_alloc klB2 oneV 1 0 - 1.41421| < 0.00001 := by
  have heval : KullbackLeibler.proximal_alloc klB2 oneV 1 0 = 0.5 * Real.sqrt 8 := by
    show 0.5 * ((oneV 0 - klB2.bnoise 0 - 1) +
        Real.sqrt ((oneV 0 + klB2.bnoise 0 - 1) ^ 2 + 4 * 1 * klB2.b 0)) = 0.5 * Real.sqrt 8
    norm_num [oneV, klB2, cst]
  refine ⟨fun n f x tau _ i => rfl, heval, ?_⟩
  rw [heval, sqrt_eight, abs_lt]
  constructor <;> nlinarith [sqrt_two_gt, sqrt_two_lt]

/-- Witness for C5 at `n = 1`, `b = [[2]]`, `bnoise = 0`, `x = [[1]]`,
`tau = 1`. -/
theorem claim_C5_witness :
    KullbackLeibler.proximal_alloc klB2 oneV 1 0 =
      0.5 * ((oneV 0 - klB2.bnoise 0 - 1) +
        Real.sqrt ((oneV 0 + klB2.bnoise 0 - 1) ^ 2 + 4 * 1 * klB2.b 0)) :=
  claim_C5_proximal_formula.1 1 klB2 oneV 1 (by norm_num) 0

/-- Claim C4: the cod-variant allocating `proximal_conjugate` returns
elementwise `(z + 1) - sqrt((z - 1)^2 + 4*tau*b)` with
`z = x + tau*bnoise`; at `b = [[2]]`, `bnoise = 0`, `x = [[1]]`, `tau = 1`
the result is `2 - sqrt(8) ≈ -0.82843`. -/
theorem claim_C4_proximal_conjugate_formula :
    (∀ (n : ℕ) (f : KullbackLeibler n) (x : Cnt n) (tau : ℝ), 0 < tau →
      ∀ i, KullbackLeibler.proximal_conjugate_cod f x tau i =
        (x i + tau * f.bnoise i + 1) -
          Real.sqrt ((x i + tau * f.bnoise i - 1) ^ 2 + 4 * tau * f.b i)) ∧
    KullbackLeibler.proximal_conjugate_cod klB2 oneV 1 0 = 2 - Real.sqrt 8 ∧
    |KullbackLeibler.proximal_conjugate_cod klB2 oneV 1 0 - (-0.82843)| < 0.00001 := by
  have heval : KullbackLeibler.proximal_conjugate_cod klB2 oneV 1 0 = 2 - Real.sqrt 8 := by
    show (oneV 0 + 1 * klB2.bnoise 0 + 1) -
        Real.sqrt ((oneV 0 + 1 * klB2.bnoise 0 - 1) ^ 2 + 4 * 1 * klB2.b 0) = 2 - Real.sqrt 8
    norm_num [oneV, klB2, cst]
  refine ⟨fun n f x tau _ i => rfl, heval, ?_⟩
  rw [heval, sqrt_eight, abs_lt]
  constructor <;> nlinarith [sqrt_two_gt, sqrt_two_lt]

/-- Witness for C4 at `n = 1`, `b = [[2]]`, `bnoise = 0`, `x = [[1]]`,
`tau = 1`. -/
theorem claim_C4_witness :
    KullbackLeibler.proximal_conjugate_cod klB2 oneV 1 0 =
      (oneV 0 + 1 * klB2.bnoise 0 + 1) -
        Real.sqrt ((oneV 0 + 1 * klB2.bnoise 0 - 1) ^ 2 + 4 * 1 * klB2.b 0) :=
  claim_C4_proximal_conjugate_formula.1 1 klB2 oneV 1 (by norm_num) 0

/-- Claim C1, counterexample: with `b = [[1]]`, `bnoise = [[1]]`,
`x = [[1]]` the HEAD `__call__` returns `1 - log 2` while the
specification formula `Σ [ x + bnoise - b*log(x + bnoise) ]` gives
`2 - log 2`; the first summand of the code is `x`, not `x + bnoise`. -/
theorem claim_C1_counterexample :
    KullbackLeibler.call_head klB1N1 oneV ≠
      KullbackLeibler.call_specification klB1N1 oneV := by
  have hh : KullbackLeibler.call_head klB1N1 oneV = 1 - Real.log 2 := by
    show (∑ i in Finset.univ.filter (fun i : Fin 1 => 0 < oneV i + klB1N1.bnoise i),
        (oneV i - klB1N1.b i * Real.log (oneV i + klB1N1.bnoise i))) = 1 - Real.log 2
    rw [Finset.filter_true_of_mem (fun i _ => by norm_num [oneV, klB1N1, cst])]
    norm_num [oneV, klB1N1, cst]
  have hs : KullbackLeibler.call_specification klB1N1 oneV = 2 - Real.log 2 := by
    show (∑ i in Finset.univ.filter (fun i : Fin 1 => 0 < oneV i + klB1N1.bnoise i),
        ((oneV i + klB1N1.bnoise i) - klB1N1.b i * Real.log (oneV i + klB1N1.bnoise i))) =
      2 - Real.log 2
    rw [Finset.filter_true_of_mem (fun i _ => by norm_num [oneV, klB1N1, cst])]
    norm_num [oneV, klB1N1, cst]
  rw [hh, hs]
  intro h
  have : (1 : ℝ) = 2 := by linarith
  norm_num at this

/-- Claim C1, amended: the HEAD `__call__` sums `x - b*log(x + bnoise)`
(not `(x + bnoise) - b*log(x + bnoise)`) over exactly the positions where
`x + bnoise > 0`; it falls short of the specification formula by the sum
of `bnoise` over those positions. -/
theorem claim_C1_value_amended :
    ∀ (n : ℕ) (f : KullbackLeibler n) (x : Cnt n),
      KullbackLeibler.call_head f x =
        (∑ i in Finset.univ.filter (fun i => 0 < x i + f.bnoise i),
          (x i - f.b i * Real.log (x i + f.bnoise i))) ∧
      KullbackLeibler.call_specification f x - KullbackLeibler.call_head f x =
        ∑ i in Finset.univ.filter (fun i => 0 < x i + f.bnoise i), f.bnoise i := by
  intro n f x
  refine ⟨rfl, ?_⟩
  show (∑ i in Finset.univ.filter (fun i => 0 < x i + f.bnoise i),
      ((x i + f.bnoise i) - f.b i * Real.log (x i + f.bnoise i))) -
    (∑ i in Finset.univ.filter (fun i => 0 < x i + f.bnoise i),
      (x i - f.b i * Real.log (x i + f.bnoise i))) = _
  rw [← Finset.sum_sub_distrib]
  exact Finset.sum_congr rfl (fun i _ => by ring)

/-- Claim C7, counterexample: `proximal` performs no validation of `tau`;
at `b = [[2]]`, `bnoise = 0`, `x = [[1]]` and the non-positive `tau = 0`
it returns the well-defined value `1` instead of raising. -/
theorem claim_C7_counterexample :
    KullbackLeibler.proximal_alloc klB2 oneV 0 0 = 1 := by
  show 0.5 * ((oneV 0 - klB2.bnoise 0 - 0) +
      Real.sqrt ((oneV 0 + klB2.bnoise 0 - 0) ^ 2 + 4 * 0 * klB2.b 0)) = 1
  norm_num [oneV, klB2, cst]

/-- Claim C7, amended: neither proximal operator validates `tau`; for any
`tau`, including `tau ≤ 0`, the same closed forms are evaluated and a
defined container is returned — at `tau = 0` they reduce to
`0.5*((x - bnoise) + |x + bnoise|)` and `(x + 1) - |x - 1|`. -/
theorem claim_C7_no_tau_validation :
    ∀ (n : ℕ) (f : KullbackLeibler n) (x : Cnt n) (i : Fin n),
      KullbackLeibler.proximal_alloc f x 0 i =
        0.5 * ((x i - f.bnoise i) + |x i + f.bnoise i|) ∧
      KullbackLeibler.proximal_conjugate_cod f x 0 i = (x i + 1) - |x i - 1| := by
  intro n f x i
  constructor
  · show 0.5 * ((x i - f.bnoise i - 0) +
        Real.sqrt ((x i + f.bnoise i - 0) ^ 2 + 4 * 0 * f.b i)) = _
    rw [show (x i + f.bnoise i - 0) ^ 2 + 4 * 0 * f.b i = (x i + f.bnoise i) ^ 2 by ring,
      Real.sqrt_sq_eq_abs]
    ring
  · show (x i + 0 * f.bnoise i + 1) -
        Real.sqrt ((x i + 0 * f.bnoise i - 1) ^ 2 + 4 * 0 * f.b i) = _
    rw [show (x i + 0 * f.bnoise i - 1) ^ 2 + 4 * 0 * f.b i = (x i - 1) ^ 2 by ring,
      Real.sqrt_sq_eq_abs]
    ring

/-- Claim C3: the Moreau decomposition
`proximal(x, tau) + tau * proximal_conjugate(x/tau, 1/tau) = x` holds
exactly (hence to any tolerance) for the HEAD-variant allocating
`proximal_conjugate` (the `0.5*((z+1) - sqrt(...))` form of line 143). -/
theorem claim_C3_moreau :
    ∀ (n : ℕ) (f : KullbackLeibler n) (x : Cnt n) (tau : ℝ), 0 < tau → ∀ i,
      KullbackLeibler.proximal_alloc f x tau i +
        tau * KullbackLeibler.proximal_conjugate_head f (fun j => x j / tau) (1 / tau) i =
      x i := by
  intro n f x tau htau i
  have htau' : tau ≠ 0 := ne_of_gt htau
  have key : Real.sqrt ((x i + f.bnoise i - tau) ^ 2 + 4 * tau * f.b i) =
      tau * Real.sqrt ((x i / tau + 1 / tau * f.bnoise i - 1) ^ 2 + 4 * (1 / tau) * f.b i) := by
    have harg : (x i + f.bnoise i - tau) ^ 2 + 4 * tau * f.b i =
        tau ^ 2 * ((x i / tau + 1 / tau * f.bnoise i - 1) ^ 2 + 4 * (1 / tau) * f.b i) := by
      field_simp
      ring
    rw [harg, Real.sqrt_mul (sq_nonneg tau), Real.sqrt_sq htau.le]
  have e1 : KullbackLeibler.proximal_alloc f x tau i =
      0.5 * ((x i - f.bnoise i - tau) +
        Real.sqrt ((x i + f.bnoise i - tau) ^ 2 + 4 * tau * f.b i)) := rfl
  have e2 : KullbackLeibler.proximal_conjugate_head f (fun j => x j / tau) (1 / tau) i =
      0.5 * ((x i / tau + 1 / tau * f.bnoise i + 1) -
        Real.sqrt ((x i / tau + 1 / tau * f.bnoise i - 1) ^ 2 + 4 * (1 / tau) * f.b i)) := rfl
  rw [e1, e2, key]
  field_simp
  ring

/-- Witness for C3 at `n = 1`, `b = [[2]]`, `bnoise = 0`, `x = [[1]]`,
`tau = 1`. -/
theorem claim_C3_witness :
    KullbackLeibler.proximal_alloc klB2 oneV 1 0 +
      1 * KullbackLeibler.proximal_conjugate_head klB2 (fun j => oneV j / 1) (1 / 1) 0 =
    oneV 0 :=
  claim_C3_moreau 1 klB2 oneV 1 (by norm_num) 0

/-- Claim C2: the allocating and in-place forms do NOT always agree.  For
the cod-variant `proximal_conjugate` at `b = [[2]]`, `bnoise = 0`,
`x = [[0.5]]`, `tau = 1` (so `z = 0.5 < 1`) the allocating form returns
`1.5 - sqrt(8.25)` but the in-place sequence writes `2.5 - sqrt(8.25)`:
it recovers `z + 1` as `sqrt((z-1)^2) + 2 = |z-1| + 2`.  Likewise the
HEAD in-place `gradient` writes `b/(x+bnoise) - 1`, the negation of the
allocating `1 - b/(x+bnoise)`: at `x = [[1]]` they give `1` and `-1`. -/
theorem claim_C2_inplace_divergence :
    KullbackLeibler.proximal_conjugate_cod klB2 halfV 1 0 = 3 / 2 - Real.sqrt (33 / 4) ∧
    KullbackLeibler.proximal_conjugate_inplace_cod klB2 halfV 1 0 =
      5 / 2 - Real.sqrt (33 / 4) ∧
    KullbackLeibler.proximal_conjugate_cod klB2 halfV 1 0 ≠
      KullbackLeibler.proximal_conjugate_inplace_cod klB2 halfV 1 0 ∧
    KullbackLeibler.gradient_alloc klB2 oneV 0 = -1 ∧
    KullbackLeibler.gradient_inplace_head klB2 oneV 0 = 1 ∧
    KullbackLeibler.gradient_alloc klB2 oneV 0 ≠
      KullbackLeibler.gradient_inplace_head klB2 oneV 0 := by
  have h1 : KullbackLeibler.proximal_conjugate_cod klB2 halfV 1 0 =
      3 / 2 - Real.sqrt (33 / 4) := by
    show (halfV 0 + 1 * klB2.bnoise 0 + 1) -
        Real.sqrt ((halfV 0 + 1 * klB2.bnoise 0 - 1) ^ 2 + 4 * 1 * klB2.b 0) =
      3 / 2 - Real.sqrt (33 / 4)
    norm_num [halfV, klB2, cst]
  have h2 : KullbackLeibler.proximal_conjugate_inplace_cod klB2 halfV 1 0 =
      5 / 2 - Real.sqrt (33 / 4) := by
    show (-Real.sqrt (klB2.b 0 * (4 * 1) +
          (halfV 0 + 1 * klB2.bnoise 0 - 1) * (halfV 0 + 1 * klB2.bnoise 0 - 1))) +
        (Real.sqrt ((halfV 0 + 1 * klB2.bnoise 0 - 1) * (halfV 0 + 1 * klB2.bnoise 0 - 1)) + 2) =
      5 / 2 - Real.sqrt (33 / 4)
    have ha : klB2.b 0 * (4 * 1) +
        (halfV 0 + 1 * klB2.bnoise 0 - 1) * (halfV 0 + 1 * klB2.bnoise 0 - 1) = 33 / 4 := by
      norm_num [halfV, klB2, cst]
    have hb : (halfV 0 + 1 * klB2.bnoise 0 - 1) * (halfV 0 + 1 * klB2.bnoise 0 - 1) =
        (1 / 2 : ℝ) ^ 2 := by
      norm_num [halfV, klB2, cst]
    rw [ha, hb, Real.sqrt_sq (by norm_num)]
    ring
  have h4 : KullbackLeibler.gradient_alloc klB2 oneV 0 = -1 := by
    show 1 - klB2.b 0 / (oneV 0 + klB2.bnoise 0) = -1
    norm_num [oneV, klB2, cst]
  have h5 : KullbackLeibler.gradient_inplace_head klB2 oneV 0 = 1 := by
    show klB2.b 0 / (oneV 0 + klB2.bnoise 0) - 1 = 1
    norm_num [oneV, klB2, cst]
  refine ⟨h1, h2, ?_, h4, h5, ?_⟩
  · rw [h1, h2]
    intro h
    have : (3 : ℝ) / 2 = 5 / 2 := by linarith
    norm_num at this
  · rw [h4, h5]
    norm_num

/-- Claim C9, counterexample: the cod in-place `proximal` with the output
target aliased to `x` reads `x` again (`x.subtract(bnoise, out=tmp)`)
after the first six statements have overwritten it, so at `b = [[2]]`,
`bnoise = 0`, `x = [[1]]`, `tau = 1` the aliased call yields
`sqrt(8) - 0.5` while the allocating closed form at the original `x`
gives `sqrt(8)/2`. -/
theorem claim_C9_counterexample :
    KullbackLeibler.proximal_inplace_cod_aliased klB2 oneV 1 0 = Real.sqrt 8 - 1 / 2 ∧
    KullbackLeibler.proximal_alloc klB2 oneV 1 0 = Real.sqrt 8 / 2 ∧
    KullbackLeibler.proximal_inplace_cod_aliased klB2 oneV 1 0 ≠
      KullbackLeibler.proximal_alloc klB2 oneV 1 0 := by
  have h1 : KullbackLeibler.proximal_inplace_cod_aliased klB2 oneV 1 0 =
      Real.sqrt 8 - 1 / 2 := by
    show (Real.sqrt ((oneV 0 + klB2.bnoise 0 - 1) * (oneV 0 + klB2.bnoise 0 - 1) +
          klB2.b 0 * (4 * 1)) +
        ((Real.sqrt ((oneV 0 + klB2.bnoise 0 - 1) * (oneV 0 + klB2.bnoise 0 - 1) +
          klB2.b 0 * (4 * 1)) - klB2.bnoise 0) - 1)) * 0.5 = Real.sqrt 8 - 1 / 2
    have ha : (oneV 0 + klB2.bnoise 0 - 1) * (oneV 0 + klB2.bnoise 0 - 1) +
        klB2.b 0 * (4 * 1) = 8 := by
      norm_num [oneV, klB2, cst]
    rw [ha]
    norm_num [klB2, cst]
    ring
  have h2 : KullbackLeibler.proximal_alloc klB2 oneV 1 0 = Real.sqrt 8 / 2 := by
    show 0.5 * ((oneV 0 - klB2.bnoise 0 - 1) +
        Real.sqrt ((oneV 0 + klB2.bnoise 0 - 1) ^ 2 + 4 * 1 * klB2.b 0)) = Real.sqrt 8 / 2
    norm_num [oneV, klB2, cst]
    ring
  have h8 : (1 : ℝ) < Real.sqrt 8 := (Real.lt_sqrt (by norm_num)).mpr (by norm_num)
  refine ⟨h1, h2, ?_⟩
  rw [h1, h2]
  intro h
  have : Real.sqrt 8 = 1 := by linarith
  rw [this] at h8
  norm_num at h8

/-- Claim C9, amended: the cod in-place `gradient` reads `x` only in its
first statement, so with `out = x` it still produces the allocating
result; the HEAD in-place `proximal` fills `out` from a fully computed
temporary and is likewise alias-safe; but the cod in-place `proximal`
with `out = x` returns `sqrt((x+bnoise-tau)^2 + 4*tau*b) - (bnoise+tau)/2`
instead of the closed-form proximal. -/
theorem claim_C9_alias_amended :
    ∀ (n : ℕ) (f : KullbackLeibler n) (x : Cnt n) (tau : ℝ),
      (∀ i, 0 < x i + f.bnoise i) → 0 < tau →
      (KullbackLeibler.gradient_inplace_cod f x = KullbackLeibler.gradient_alloc f x ∧
       KullbackLeibler.proximal_inplace_head f x tau =
         KullbackLeibler.proximal_alloc f x tau ∧
       ∀ i, KullbackLeibler.proximal_inplace_cod_aliased f x tau i =
         Real.sqrt ((x i + f.bnoise i - tau) ^ 2 + 4 * tau * f.b i) -
           (f.bnoise i + tau) / 2) := by
  intro n f x tau _ _
  refine ⟨?_, rfl, ?_⟩
  · funext i
    show -(f.b i / (x i + f.bnoise i) - 1) = 1 - f.b i / (x i + f.bnoise i)
    ring
  · intro i
    show (Real.sqrt ((x i + f.bnoise i - tau) * (x i + f.bnoise i - tau) +
          f.b i * (4 * tau)) +
        ((Real.sqrt ((x i + f.bnoise i - tau) * (x i + f.bnoise i - tau) +
          f.b i * (4 * tau)) - f.bnoise i) - tau)) * 0.5 = _
    rw [show (x i + f.bnoise i - tau) * (x i + f.bnoise i - tau) + f.b i * (4 * tau) =
        (x i + f.bnoise i - tau) ^ 2 + 4 * tau * f.b i by ring]
    ring

/-- Witness for C9 (amended) at `n = 1`, `b = [[2]]`, `bnoise = 0`,
`x = [[1]]`, `tau = 1`. -/
theorem claim_C9_witness :
    KullbackLeibler.gradient_inplace_cod klB2 oneV = KullbackLeibler.gradient_alloc klB2 oneV ∧
    KullbackLeibler.proximal_inplace_head klB2 oneV 1 =
      KullbackLeibler.proximal_alloc klB2 oneV 1 ∧
    ∀ i, KullbackLeibler.proximal_inplace_cod_aliased klB2 oneV 1 i =
      Real.sqrt ((oneV i + klB2.bnoise i - 1) ^ 2 + 4 * 1 * klB2.b i) -
        (klB2.bnoise i + 1) / 2 :=
  claim_C9_alias_amended 1 klB2 oneV 1
    (fun i => by norm_num [oneV, klB2, cst]) (by norm_num)

/-- Claim C8, counterexample: the cod `__call__` assigns the instance
attribute `self.sum_value`; on a freshly constructed instance (attribute
absent) a single call changes the instance state. -/
theorem claim_C8_counterexample :
    (KullbackLeibler.call_cod s0 oneV).1 ≠ s0 := by
  have hs : (KullbackLeibler.call_cod s0 oneV).1.sum_value ≠ none := by
    simp only [KullbackLeibler.call_cod]
    split_ifs <;> simp
  intro h
  rw [h] at hs
  exact hs rfl

/-- Claim C8, amended: no operation mutates `b` or `bnoise`, and
`gradient`, `convex_conjugate`, `proximal` and `proximal_conjugate`
create no instance state; the cod `__call__` however writes the
`sum_value` attribute.  The attribute is overwritten before being read,
so the returned value of every call is independent of it. -/
theorem claim_C8_state_amended :
    ∀ (n : ℕ) (s : KLState n) (x : Cnt n) (tau : ℝ),
      (KullbackLeibler.call_cod s x).1.kl = s.kl ∧
      (∀ s' : KLState n, s'.kl = s.kl →
        (KullbackLeibler.call_cod s' x).2 = (KullbackLeibler.call_cod s x).2) ∧
      (KullbackLeibler.gradient_st s x).1 = s ∧
      (KullbackLeibler.proximal_st s x tau).1 = s ∧
      (KullbackLeibler.proximal_conjugate_st s x tau).1 = s ∧
      (KullbackLeibler.convex_conjugate_st s x).1 = s := by
  intro n s x tau
  refine ⟨?_, ?_, rfl, rfl, rfl, rfl⟩
  · simp only [KullbackLeibler.call_cod]
    split_ifs <;> rfl
  · intro s' h
    simp only [KullbackLeibler.call_cod, h]

/-- Witness for C8 (amended): the hypothesis of the independence conjunct
discharged with the concrete instance `s0` itself. -/
theorem claim_C8_witness :
    (KullbackLeibler.call_cod s0 oneV).2 = (KullbackLeibler.call_cod s0 oneV).2 ∧
    (KullbackLeibler.gradient_st s0 oneV).1 = s0 :=
  ⟨(claim_C8_state_amended 1 s0 oneV 1).2.1 s0 rfl,
   (claim_C8_state_amended 1 s0 oneV 1).2.2.1⟩

/-- Claim C6, counterexample: at `b = [[2]]`, `x = [[1]]` the element
satisfies `1 - x = 0 ≤ 0`, yet `convex_conjugate` does not raise: the
IEEE quotient `tmp = 2/0 = +inf` passes the strict-positivity guard of
the `log` helper and the call returns `+inf`. -/
theorem claim_C6_counterexample :
    (1 - oneV 0 ≤ 0) ∧
    KullbackLeibler.convex_conjugate_cod klB2 oneV = CCRes.ok FloatV.inf := by
  have htmp : ∀ i : Fin 1, FloatV.fdiv (klB2.b i) (1 - oneV i) = FloatV.inf := by
    intro i
    have h0 : (1 : ℝ) - oneV i = 0 := by norm_num [oneV, cst]
    unfold FloatV.fdiv
    rw [h0, if_pos rfl, if_pos (show (0 : ℝ) < klB2.b i by norm_num [klB2, cst])]
  constructor
  · norm_num [oneV, cst]
  · rw [show KullbackLeibler.convex_conjugate_cod klB2 oneV =
        (if ∀ i : Fin 1, FloatV.isPos (FloatV.fdiv (klB2.b i) (1 - oneV i)) then
          CCRes.ok (FloatV.fsum (fun i =>
            FloatV.fsub
              (FloatV.mulR (klB2.b i)
                (FloatV.subR (FloatV.flog (FloatV.fdiv (klB2.b i) (1 - oneV i))) 1))
              (FloatV.fin (klB2.bnoise i * (oneV i - 1)))))
        else CCRes.raise) from rfl]
    rw [if_pos (fun i => by rw [htmp i]; trivial)]
    congr 1
    have hval : (fun i : Fin 1 =>
        FloatV.fsub
          (FloatV.mulR (klB2.b i)
            (FloatV.subR (FloatV.flog (FloatV.fdiv (klB2.b i) (1 - oneV i))) 1))
          (FloatV.fin (klB2.bnoise i * (oneV i - 1)))) = fun _ => FloatV.inf := by
      funext i
      rw [htmp i]
      show FloatV.fsub
          (if (0 : ℝ) < klB2.b i then FloatV.inf
            else if klB2.b i < 0 then FloatV.ninf else FloatV.nan)
          (FloatV.fin (klB2.bnoise i * (oneV i - 1))) = FloatV.inf
      rw [if_pos (show (0 : ℝ) < klB2.b i by norm_num [klB2, cst])]
      rfl
    rw [hval]
    rfl

/-- Claim C6, amended: given elementwise non-negative `b`, any element
with `1 - x < 0` (strictly) makes `tmp = b/(1-x)` non-positive, so the
guard in the `log` helper raises `ValueError`; at an element with
`1 - x = 0` exactly and `b > 0` the quotient is `+inf`, which passes the
guard, and no error is raised. -/
theorem claim_C6_domain_amended :
    ∀ (n : ℕ) (f : KullbackLeibler n) (x : Cnt n),
      (∀ i, 0 ≤ f.b i) → (∃ i, 1 - x i < 0) →
      KullbackLeibler.convex_conjugate_cod f x = CCRes.raise := by
  intro n f x hb ⟨i, hi⟩
  rw [show KullbackLeibler.convex_conjugate_cod f x =
      (if ∀ j, FloatV.isPos (FloatV.fdiv (f.b j) (1 - x j)) then
        CCRes.ok (FloatV.fsum (fun j =>
          FloatV.fsub
            (FloatV.mulR (f.b j)
              (FloatV.subR (FloatV.flog (FloatV.fdiv (f.b j) (1 - x j))) 1))
            (FloatV.fin (f.bnoise j * (x j - 1)))))
      else CCRes.raise) from rfl]
  rw [if_neg]
  intro hall
  have hdiv : FloatV.fdiv (f.b i) (1 - x i) = FloatV.fin (f.b i / (1 - x i)) := by
    unfold FloatV.fdiv
    rw [if_neg (ne_of_lt hi)]
  have hq : f.b i / (1 - x i) ≤ 0 := div_nonpos_iff.mpr (Or.inl ⟨hb i, hi.le⟩)
  have := hall i
  rw [hdiv] at this
  exact absurd this (not_lt.mpr hq)

/-- Witness for C6 (amended) at `n = 1`, `b = [[2]]`, `x = [[2]]`. -/
theorem claim_C6_witness :
    KullbackLeibler.convex_conjugate_cod klB2 twoV = CCRes.raise :=
  claim_C6_domain_amended 1 klB2 twoV
    (fun i => by norm_num [klB2, cst]) ⟨0, by norm_num [twoV, cst]⟩

/-- Claim C10: if some element of `b` is zero then, even with `1 - x > 0`
everywhere, `convex_conjugate` raises `ValueError`: the quotient
`tmp = 0/(1-x) = 0` fails the strict-positivity guard of the `log`
helper. -/
theorem claim_C10_zero_b_raises :
    ∀ (n : ℕ) (f : KullbackLeibler n) (x : Cnt n),
      (∃ i, f.b i = 0) → (∀ i, 0 < 1 - x i) →
      KullbackLeibler.convex_conjugate_cod f x = CCRes.raise := by
  intro n f x ⟨i, hbi⟩ hx
  rw [show KullbackLeibler.convex_conjugate_cod f x =
      (if ∀ j, FloatV.isPos (FloatV.fdiv (f.b j) (1 - x j)) then
        CCRes.ok (FloatV.fsum (fun j =>
          FloatV.fsub
            (FloatV.mulR (f.b j)
              (FloatV.subR (FloatV.flog (FloatV.fdiv (f.b j) (1 - x j))) 1))
            (FloatV.fin (f.bnoise j * (x j - 1)))))
      else CCRes.raise) from rfl]
  rw [if_neg]
  intro hall
  have hdiv : FloatV.fdiv (f.b i) (1 - x i) = FloatV.fin (f.b i / (1 - x i)) := by
    unfold FloatV.fdiv
    rw [if_neg (ne_of_gt (hx i))]
  have := hall i
  rw [hdiv, hbi] at this
  have hz : (0 : ℝ) / (1 - x i) = 0 := zero_div _
  rw [hz] at this
  exact absurd this (lt_irrefl 0)

/-- Witness for C10 at `n = 1`, `b = [[0]]`, `x = [[0]]`. -/
theorem claim_C10_witness :
    KullbackLeibler.convex_conjugate_cod klZero zeroV = CCRes.raise :=
  claim_C10_zero_b_raises 1 klZero zeroV
    ⟨0, by norm_num [klZero, cst]⟩ (fun i => by norm_num [zeroV, cst])
